import Mathlib

/-!
Shallow embedding of the Box-Cox transformation module
(`sktime/transformations/series/boxcox.py`) and of the time-series-forest
prediction aggregation (`sktime/regression/interval_based/_tsf.py`).

Sequences (1-D numpy arrays / pandas Series) are modelled as `List ℝ`;
2-D arrays as `List (List ℝ)` (list of rows).  Python `raise ValueError` /
`raise TypeError` is modelled by an `Except` return.  Functions from
external libraries (scipy optimizers, the normal quantile function,
`stats.pearsonr`, `boxcox_llf`, `np.sort`, the confidence-interval helper)
are abstracted as fields of an `Externals` record: the embedding is
parametric in them, exactly as the source code is parametric in scipy.
-/

namespace Sktime

open Real

/-- Errors raised by the Box-Cox module.  Each constructor corresponds to one
`raise ValueError(...)` site in the source, named after its message.
In the taxonomy of the specification: `dataMustBe1D` is `ShapeError`,
`dataMustNotBeConstant` is `DegenerateInputError`, `dataMustBePositive` is
`DomainError`, and the remaining three are `InvalidParameter`. -/
inductive ValueErr
  | dataMustBe1D
  | dataMustNotBeConstant
  | dataMustBePositive
  | guerreroNeedsSp
  | boundsMustBePair
  | methodNotRecognized
  deriving DecidableEq

/-- `scipy.special.boxcox(x, lmbda)` elementwise:
`(x^lmbda - 1)/lmbda` for `lmbda ≠ 0` and `log x` for `lmbda = 0`. -/
noncomputable def boxcoxElem (x lmbda : ℝ) : ℝ :=
  if lmbda = 0 then Real.log x else (x ^ lmbda - 1) / lmbda

/-- `scipy.special.inv_boxcox(y, lmbda)` elementwise:
`(lmbda*y + 1)^(1/lmbda)` for `lmbda ≠ 0` and `exp y` for `lmbda = 0`. -/
noncomputable def invBoxcoxElem (y lmbda : ℝ) : ℝ :=
  if lmbda = 0 then Real.exp y else (lmbda * y + 1) ^ (1 / lmbda)

namespace BoxCoxTransformer

/-- `BoxCoxTransformer._transform`: applies `scipy.special.boxcox` to the
series values with the fitted `lambda_` (passed explicitly here). -/
noncomputable def trans (lambda_ : ℝ) (z : List ℝ) : List ℝ :=
  z.map (fun a => boxcoxElem a lambda_)

/-- `BoxCoxTransformer.inverse_transform`: applies `scipy.special.inv_boxcox`
to the series values with the fitted `lambda_` (passed explicitly here). -/
noncomputable def inverse (lambda_ : ℝ) (z : List ℝ) : List ℝ :=
  z.map (fun a => invBoxcoxElem a lambda_)

end BoxCoxTransformer

/-- External library functions the module calls but does not define.
The embedding is parametric in them, as the source is parametric in scipy:
nothing below depends on their values beyond what the source guarantees. -/
structure Externals where
  /-- `scipy.optimize.brent(func, brack=(-2.0, 2.0))`: unconstrained 1-D
  minimizer seeded with the fixed bracket. -/
  brent : (ℝ → ℝ) → ℝ
  /-- `scipy.optimize.fminbound(func, low, high)`: bounded 1-D minimizer. -/
  fminbound : ℝ → ℝ → (ℝ → ℝ) → ℝ
  /-- `scipy.stats.morestats._calc_uniform_order_statistic_medians(n)`. -/
  osmUniform : ℕ → List ℝ
  /-- `scipy.stats.distributions.norm.ppf`, the normal quantile function. -/
  ppf : ℝ → ℝ
  /-- the correlation coefficient `r` returned by `scipy.stats.pearsonr`. -/
  pearsonr : List ℝ → List ℝ → ℝ
  /-- `scipy.stats.boxcox_llf(lmb, data)`, the Box-Cox log-likelihood. -/
  boxcox_llf : ℝ → List ℝ → ℝ
  /-- `np.sort` on a 1-D array. -/
  sortArr : List ℝ → List ℝ
  /-- `scipy.stats.morestats._boxcox_conf_interval(x, lmax, alpha)`. -/
  confInterval : List ℝ → ℝ → ℝ → ℝ × ℝ

/-- `_make_boxcox_optimizer(bounds, brack)`: with `bounds=None` returns plain
Brent optimisation with the given bracket; otherwise validates that `bounds`
is a pair and returns bounded Brent optimisation on `[bounds[0], bounds[1]]`.
A Python tuple of floats is modelled as `List ℝ` so that the length check is
meaningful. -/
noncomputable def _make_boxcox_optimizer (ext : Externals)
    (bounds : Option (List ℝ)) : Except ValueErr ((ℝ → ℝ) → ℝ) :=
  match bounds with
  | none => .ok ext.brent
  | some b =>
      if b.length = 2 then
        .ok (fun func => ext.fminbound (b.getD 0 0) (b.getD 1 0) func)
      else .error .boundsMustBePair

/-- Scalar-or-array return value of `_boxcox_normmax`:
`"pearsonr"` and `"mle"` return a scalar, `"all"` returns an array. -/
inductive PyFloatOrArray
  | scalar (r : ℝ)
  | array (l : List ℝ)

/-- The inner `_pearsonr(x)` of `_boxcox_normmax`: minimizes
`1 - pearsonr(xvals, sort(_boxcox(x, lmbda)))` where `xvals` are the normal
quantiles of the uniform order-statistic medians.  The objective evaluates
`_boxcox(samps, lmbda)`, whose validity checks (empty, constant, positive)
do not depend on `lmbda`; an invalid `x` therefore raises at the first
objective evaluation inside the optimizer, which is modelled by performing
the check once before calling the optimizer. -/
noncomputable def normmaxPearsonr (ext : Externals)
    (optimizer : (ℝ → ℝ) → ℝ) (x : List ℝ) : Except ValueErr ℝ :=
  let osm_uniform := ext.osmUniform x.length
  let xvals := osm_uniform.map ext.ppf
  if ¬ x = [] ∧ (∀ a ∈ x, a = x.headD 0) then
    .error .dataMustNotBeConstant
  else if ¬ x = [] ∧ (∃ a ∈ x, a ≤ 0) then
    .error .dataMustBePositive
  else
    .ok (optimizer (fun lmbda =>
      1 - ext.pearsonr xvals
        (ext.sortArr (x.map (fun a => boxcoxElem a lmbda)))))

/-- The inner `_mle(x)` of `_boxcox_normmax`: minimizes the negated Box-Cox
log-likelihood `-boxcox_llf(lmb, x)`.  Its objective never raises. -/
noncomputable def normmaxMle (ext : Externals)
    (optimizer : (ℝ → ℝ) → ℝ) (x : List ℝ) : Except ValueErr ℝ :=
  .ok (optimizer (fun lmb => -(ext.boxcox_llf lmb x)))

/-- `_boxcox_normmax(x, bounds, brack=(-2.0, 2.0), method)`: builds the
optimizer from `bounds`, then dispatches on the method name; `"all"` fills a
2-element array with the `_pearsonr` and `_mle` results in that order. -/
noncomputable def _boxcox_normmax (ext : Externals) (x : List ℝ)
    (bounds : Option (List ℝ)) (method : String) :
    Except ValueErr PyFloatOrArray :=
  match _make_boxcox_optimizer ext bounds with
  | .error e => .error e
  | .ok optimizer =>
      if method = "pearsonr" then
        (normmaxPearsonr ext optimizer x).map .scalar
      else if method = "mle" then
        (normmaxMle ext optimizer x).map .scalar
      else if method = "all" then
        match normmaxPearsonr ext optimizer x, normmaxMle ext optimizer x with
        | .ok p, .ok m => .ok (.array [p, m])
        | .error e, _ => .error e
        | _, .error e => .error e
      else .error .methodNotRecognized

/-- Return value of `_boxcox`: the transformed array, optionally paired with
the fitted lambda and with a confidence interval (self-estimating mode). -/
inductive BCResult
  | arr (y : List ℝ)
  | arrLam (y : List ℝ) (lam : ℝ)
  | arrLamCI (y : List ℝ) (lam : ℝ) (ci : ℝ × ℝ)

/-- `_boxcox(x, lmbda, bounds, alpha)`: the checked Box-Cox transform.
Checks, in source order: dimensionality (a `List ℝ` is always 1-D, so the
`x.ndim != 1` branch cannot fire and is omitted), empty passthrough,
constancy (`np.all(x == x[0])`), positivity (`any(x <= 0)`).  Then a given
`lmbda` yields `scipy.special.boxcox(x, lmbda)`; `lmbda = None` first fits
lambda by `_boxcox_normmax(x, bounds, method="mle")` and applies
`_boxcox(x, lmax)`, whose checks are already known to pass, so the recursive
call is inlined as the elementwise map. -/
noncomputable def _boxcox (ext : Externals) (x : List ℝ) (lmbda : Option ℝ)
    (bounds : Option (List ℝ)) (alpha : Option ℝ) :
    Except ValueErr BCResult :=
  if x = [] then .ok (.arr x)
  else if ∀ a ∈ x, a = x.headD 0 then .error .dataMustNotBeConstant
  else if ∃ a ∈ x, a ≤ 0 then .error .dataMustBePositive
  else
    match lmbda with
    | some l => .ok (.arr (x.map (fun a => boxcoxElem a l)))
    | none =>
        match _boxcox_normmax ext x bounds "mle" with
        | .error e => .error e
        | .ok (.scalar lmax) =>
            let y := x.map (fun a => boxcoxElem a lmax)
            match alpha with
            | none => .ok (.arrLam y lmax)
            | some al => .ok (.arrLamCI y lmax (ext.confInterval x lmax al))
        -- unreachable: `_boxcox_normmax` with method="mle" returns a scalar
        | .ok (.array _) => .error .methodNotRecognized

/-- `np.mean` of a 1-D array. -/
noncomputable def npMean (l : List ℝ) : ℝ := l.sum / l.length

/-- `np.std(l, ddof)` of a 1-D array: square root of the sum of squared
deviations from the mean divided by `n - ddof`. -/
noncomputable def npStd (l : List ℝ) (ddof : ℕ) : ℝ :=
  Real.sqrt ((l.map (fun a => (a - npMean l) ^ 2)).sum
    / ((l.length : ℝ) - (ddof : ℝ)))

/-- `scipy.stats.variation`: coefficient of variation,
`std(ddof=0) / mean`. -/
noncomputable def variation (l : List ℝ) : ℝ := npStd l 0 / npMean l

/-- Fuel-indexed splitting of a list into consecutive chunks of length `sp`
(the fuel bounds the number of produced rows; `l.length` always suffices). -/
def reshapeAux : ℕ → ℕ → List ℝ → List (List ℝ)
  | 0, _, _ => []
  | _ + 1, _, [] => []
  | fuel + 1, sp, a :: l => (a :: l).take sp :: reshapeAux fuel sp ((a :: l).drop sp)

/-- `np.reshape(l, (-1, sp))` for a 1-D array whose length is a multiple of
`sp`: the list of consecutive rows of length `sp`. -/
def reshapeRows (sp : ℕ) (l : List ℝ) : List (List ℝ) :=
  reshapeAux l.length sp l

/-- The seasonal-periodicity argument `sp` as received by `_guerrero`: either
absent (`None`), a Python int, or a non-integer number. -/
inductive SpParam
  | intVal (n : ℤ)
  | floatVal (r : ℝ)

/-- `sktime.utils.validation.is_int`. -/
def is_int : SpParam → Bool
  | .intVal _ => true
  | .floatVal _ => false

/-- The per-block arrays of `_guerrero`: the prefix of length
`len(x) % sp` is dropped and the rest is reshaped into rows of length
`sp`. -/
def guerreroBlocks (x : List ℝ) (sp : ℕ) : List (List ℝ) :=
  reshapeRows sp (x.drop (x.length % sp))

/-- `_eval_guerrero(lmb, x_std, x_mean)` with the block statistics of `x`:
the coefficient of variation of the elementwise ratios
`std / mean^(1 - lmb)`, where each block has mean `np.mean` and
standard deviation `np.std(..., ddof=1)`. -/
noncomputable def guerreroObj (x : List ℝ) (sp : ℕ) (lmb : ℝ) : ℝ :=
  variation (List.zipWith (fun s m => s / m ^ (1 - lmb))
    ((guerreroBlocks x sp).map (fun r => npStd r 1))
    ((guerreroBlocks x sp).map npMean))

/-- `_guerrero(x, sp, bounds)`: validates `sp` (`None`, non-int, or `< 2`
raise), trims the length-`len(x) % sp` prefix, reshapes into `(-1, sp)`
blocks, takes per-block `np.mean` and `np.std(ddof=1)`, and minimizes the
coefficient of variation of `x_std / x_mean ** (1 - lmb)` with the optimizer
returned by `_make_boxcox_optimizer(bounds)`.  (The `x.ndim != 1` check
cannot fire for a `List ℝ` and is omitted.) -/
noncomputable def _guerrero (ext : Externals) (x : List ℝ)
    (sp : Option SpParam) (bounds : Option (List ℝ)) : Except ValueErr ℝ :=
  match sp with
  | none => .error .guerreroNeedsSp
  | some spv =>
      if is_int spv = false then .error .guerreroNeedsSp
      else
        match spv with
        | .floatVal _ => .error .guerreroNeedsSp  -- unreachable: not an int
        | .intVal n =>
            if n < 2 then .error .guerreroNeedsSp
            else
              match _make_boxcox_optimizer ext bounds with
              | .error e => .error e
              | .ok optimizer =>
                  .ok (optimizer (guerreroObj x n.toNat))

/-! ## Time series forest regressor (`_tsf.py`) -/

/-- The one error `TimeSeriesForestRegressor.predict` raises itself: the
`raise TypeError(...)` for a series-length mismatch with the training data
(called `ShapeError` in the specification). -/
inductive TSFErr
  | seriesLengthMismatch
  deriving DecidableEq

/-- The fitted state of a `TimeSeriesForestRegressor` that `predict` reads:
the training `series_length` and the fitted ensemble.  `predict` pairs
`estimators_[i]` with `intervals_[i]` for `i < n_estimators`; the two
parallel lists are modelled as one list of pairs.  Estimator type `E` and
interval-set type `I` are abstract (both are external artifacts). -/
structure TSForestRegressor (E I : Type) where
  series_length : ℕ
  members : List (E × I)

/-- `_predict(X, estimator, intervals)`: transform the raw batch with the
interval set of the member, then ask its tree for one prediction per
instance.  `tr` models the external `_transform`, `ep` the external
`estimator.predict`. -/
def _predict {E I : Type} (tr : List (List ℝ) → I → List (List ℝ))
    (ep : E → List (List ℝ) → List ℝ) (X : List (List ℝ))
    (estimator : E) (intervals : I) : List ℝ :=
  ep estimator (tr X intervals)

/-- `np.mean(rows, axis=0)` for a rectangular 2-D array given as a list of
rows: the elementwise column sums divided by the number of rows. -/
noncomputable def meanAxis0 (rows : List (List ℝ)) : List ℝ :=
  (List.range (rows.headD []).length).map
    (fun j => (rows.map (fun r => r.getD j 0)).sum / rows.length)

/-- `TimeSeriesForestRegressor.predict(X)`: after the external validation
and squeeze (out of scope), reads `series_length` from the shape of the batch,
raises if it differs from the training length, and otherwise returns the
arithmetic mean over the ensemble of the per-member prediction vectors. -/
noncomputable def TSForestRegressor.predict {E I : Type}
    (tr : List (List ℝ) → I → List (List ℝ))
    (ep : E → List (List ℝ) → List ℝ)
    (f : TSForestRegressor E I) (X : List (List ℝ)) :
    Except TSFErr (List ℝ) :=
  let series_length := (X.headD []).length
  if series_length ≠ f.series_length then .error .seriesLengthMismatch
  else
    let y_pred := f.members.map (fun p => _predict tr ep X p.1 p.2)
    .ok (meanAxis0 y_pred)

/-! ## Helper lemmas -/

lemma invBoxcoxElem_boxcoxElem (a lam : ℝ) (ha : 0 < a) :
    invBoxcoxElem (boxcoxElem a lam) lam = a := by
  unfold boxcoxElem invBoxcoxElem
  by_cases hl : lam = 0
  · simp [hl, Real.exp_log ha]
  · rw [if_neg hl, if_neg hl]
    have h1 : lam * ((a ^ lam - 1) / lam) + 1 = a ^ lam := by
      field_simp
    rw [h1, ← Real.rpow_mul ha.le, mul_one_div_cancel hl, Real.rpow_one]

lemma reshapeAux_flatten (sp : ℕ) (hsp : 0 < sp) (fuel : ℕ) :
    ∀ l : List ℝ, l.length ≤ fuel → (reshapeAux fuel sp l).flatten = l := by
  induction fuel with
  | zero =>
      intro l h
      rw [List.length_eq_zero.mp (Nat.le_zero.mp h)]
      rfl
  | succ fuel ih =>
      intro l h
      cases l with
      | nil => rfl
      | cons a t =>
          show ((a :: t).take sp :: reshapeAux fuel sp ((a :: t).drop sp)).flatten
            = a :: t
          rw [List.flatten_cons, ih ((a :: t).drop sp) (by
            rw [List.length_drop]
            simp only [List.length_cons] at h ⊢
            omega)]
          exact List.take_append_drop sp (a :: t)

lemma reshapeAux_mem_length (sp : ℕ) (hsp : 0 < sp) (fuel : ℕ) :
    ∀ l : List ℝ, l.length ≤ fuel → sp ∣ l.length →
      ∀ b ∈ reshapeAux fuel sp l, b.length = sp := by
  induction fuel with
  | zero =>
      intro l _ _ b hb
      simp [reshapeAux] at hb
  | succ fuel ih =>
      intro l h hd b hb
      cases l with
      | nil => simp [reshapeAux] at hb
      | cons a t =>
          simp only [reshapeAux, List.mem_cons] at hb
          rcases hb with rfl | hb
          · rw [List.length_take]
            have hlen : sp ≤ (a :: t).length := Nat.le_of_dvd (by simp) hd
            omega
          · refine ih ((a :: t).drop sp) ?_ ?_ b hb
            · rw [List.length_drop]
              simp only [List.length_cons] at h ⊢
              omega
            · rw [List.length_drop]
              exact Nat.dvd_sub' hd dvd_rfl

lemma drop_mod_length_dvd (x : List ℝ) (sp : ℕ) :
    sp ∣ (x.drop (x.length % sp)).length := by
  rw [List.length_drop]
  have h := Nat.div_add_mod x.length sp
  exact ⟨x.length / sp, by omega⟩

lemma guerreroBlocks_flatten (x : List ℝ) (sp : ℕ) (hsp : 0 < sp) :
    (guerreroBlocks x sp).flatten = x.drop (x.length % sp) :=
  reshapeAux_flatten sp hsp _ _ le_rfl

lemma guerreroBlocks_mem_length (x : List ℝ) (sp : ℕ) (hsp : 0 < sp) :
    ∀ b ∈ guerreroBlocks x sp, b.length = sp :=
  reshapeAux_mem_length sp hsp _ _ le_rfl (drop_mod_length_dvd x sp)

lemma variation_singleton (r : ℝ) : variation [r] = 0 := by
  simp [variation, npStd, npMean]

lemma getD_map_range (n j : ℕ) (f : ℕ → ℝ) (h : j < n) :
    ((List.range n).map f).getD j 0 = f j := by
  rw [List.getD_eq_getElem?_getD, List.getElem?_map, List.getElem?_range h]
  rfl

lemma meanAxis0_length (rows : List (List ℝ)) :
    (meanAxis0 rows).length = (rows.headD []).length := by
  simp [meanAxis0]

lemma meanAxis0_getD (rows : List (List ℝ)) (j : ℕ)
    (hj : j < (rows.headD []).length) :
    (meanAxis0 rows).getD j 0
      = (rows.map (fun r => r.getD j 0)).sum / rows.length := by
  unfold meanAxis0
  exact getD_map_range _ j _ hj

lemma headD_mem_of_ne_nil {α : Type} (l : List α) (d : α) (h : l ≠ []) :
    l.headD d ∈ l := by
  obtain ⟨a, t, rfl⟩ := List.exists_cons_of_ne_nil h
  exact List.mem_cons_self a t

lemma meanAxis0_perm (rows1 rows2 : List (List ℝ)) (hperm : rows1.Perm rows2)
    (n : ℕ) (hrect : ∀ r ∈ rows1, r.length = n) (hne : rows1 ≠ []) :
    meanAxis0 rows1 = meanAxis0 rows2 := by
  have hne2 : rows2 ≠ [] := by
    intro e
    exact hne (List.Perm.eq_nil (e ▸ hperm))
  have hh1 : (rows1.headD []).length = n :=
    hrect _ (headD_mem_of_ne_nil rows1 [] hne)
  have hh2 : (rows2.headD []).length = n :=
    hrect _ (hperm.mem_iff.mpr (headD_mem_of_ne_nil rows2 [] hne2))
  unfold meanAxis0
  rw [hh1, hh2]
  refine List.map_congr_left fun j _ => ?_
  rw [hperm.length_eq, (hperm.map (fun r => r.getD j 0)).sum_eq]


/-! ## Concrete instantiation of the externals, for witnesses -/

/-- A concrete instance of the external library functions, used to
instantiate the theorems at concrete inputs: the optimizers and statistics
return 0 and the sorting function is the identity. -/
noncomputable def ext0 : Externals where
  brent := fun _ => 0
  fminbound := fun _ _ _ => 0
  osmUniform := fun _ => []
  ppf := fun _ => 0
  pearsonr := fun _ _ => 0
  boxcox_llf := fun _ _ => 0
  sortArr := fun l => l
  confInterval := fun _ _ _ => (0, 0)

/-! ## Claim theorems -/

/-- Claim C1: for every 1-D, non-empty, strictly positive, non-constant
sequence `x` and every finite `lam`, the Box-Cox transform returns the
elementwise values `(a^lam - 1)/lam` when `lam ≠ 0` and `log a` when
`lam = 0` — both at the checked `_boxcox` layer and at the
`_transform` method of the transformer. -/
theorem boxcox_transform_elementwise (ext : Externals) (x : List ℝ)
    (lam : ℝ) (bounds : Option (List ℝ)) (alpha : Option ℝ)
    (hne : x ≠ []) (hpos : ∀ a ∈ x, 0 < a)
    (hnc : ¬ ∀ a ∈ x, a = x.headD 0) :
    _boxcox ext x (some lam) bounds alpha =
      .ok (.arr (x.map (fun a =>
        if lam = 0 then Real.log a else (a ^ lam - 1) / lam))) ∧
    BoxCoxTransformer.trans lam x =
      x.map (fun a => if lam = 0 then Real.log a else (a ^ lam - 1) / lam) := by
  have hneg : ¬ ∃ a ∈ x, a ≤ 0 := by
    rintro ⟨a, ha, hle⟩
    exact absurd (hpos a ha) (not_lt.2 hle)
  constructor
  · unfold _boxcox
    rw [if_neg hne, if_neg hnc, if_neg hneg]
    rfl
  · rfl

/-- Witness for C1 at `x = [1, 2]`, `lam = 2`. -/
theorem boxcox_transform_elementwise_witness :
    _boxcox ext0 [1, 2] (some 2) none none =
      .ok (.arr ([(1:ℝ), 2].map (fun a =>
        if (2:ℝ) = 0 then Real.log a else (a ^ (2:ℝ) - 1) / 2))) :=
  (boxcox_transform_elementwise ext0 [1, 2] 2 none none (by simp)
    (by intro a ha; fin_cases ha <;> norm_num)
    (by norm_num [List.forall_mem_cons])).1

/-- Claim C2: for every strictly positive, non-constant sequence `x` and
every finite `lam`, the inverse transform undoes the forward transform
exactly (the floating-point statement holds exactly over the reals). -/
theorem boxcox_roundtrip (lam : ℝ) (x : List ℝ)
    (hpos : ∀ a ∈ x, 0 < a) (hnc : ¬ ∀ a ∈ x, a = x.headD 0) :
    BoxCoxTransformer.inverse lam (BoxCoxTransformer.trans lam x) = x := by
  unfold BoxCoxTransformer.inverse BoxCoxTransformer.trans
  rw [List.map_map]
  calc x.map ((fun a => invBoxcoxElem a lam) ∘ (fun a => boxcoxElem a lam))
      = x.map id :=
        List.map_congr_left (fun a ha =>
          invBoxcoxElem_boxcoxElem a lam (hpos a ha))
    _ = x := List.map_id x

/-- Witness for C2 at `x = [1, 2]`, `lam = 1`. -/
theorem boxcox_roundtrip_witness :
    BoxCoxTransformer.inverse 1 (BoxCoxTransformer.trans 1 [1, 2]) = [1, 2] :=
  boxcox_roundtrip 1 [1, 2] (by intro a ha; fin_cases ha <;> norm_num)
    (by norm_num [List.forall_mem_cons])

/-- Claim C6: for every non-empty constant sequence and every lambda
(given or self-estimated) the checked transform raises the constant-data
error (called `DegenerateInputError` in the specification). -/
theorem boxcox_constant_error (ext : Externals) (x : List ℝ)
    (hne : x ≠ []) (hconst : ∀ a ∈ x, a = x.headD 0)
    (lmbda : Option ℝ) (bounds : Option (List ℝ)) (alpha : Option ℝ) :
    _boxcox ext x lmbda bounds alpha = .error .dataMustNotBeConstant := by
  unfold _boxcox
  rw [if_neg hne, if_pos hconst]

/-- Witness for C6 at `x = [5, 5, 5, 5]`, `lmbda = 1`. -/
theorem boxcox_constant_error_witness :
    _boxcox ext0 [5, 5, 5, 5] (some 1) none none
      = .error .dataMustNotBeConstant :=
  boxcox_constant_error ext0 [5, 5, 5, 5] (by simp)
    (by intro a ha; fin_cases ha <;> rfl) (some 1) none none

/-- Counterexample to C7 as stated: `[-3, -3, -3]` contains a non-positive
element, yet the transform does not fail with the positivity error — the
constancy check fires first. -/
theorem boxcox_nonpositive_counterexample :
    (∃ a ∈ [(-3:ℝ), -3, -3], a ≤ 0) ∧
      _boxcox ext0 [(-3:ℝ), -3, -3] (some 1) none none
        ≠ .error .dataMustBePositive := by
  have hconst : ∀ a ∈ [(-3:ℝ), -3, -3], a = [(-3:ℝ), -3, -3].headD 0 := by
    intro a ha; fin_cases ha <;> rfl
  have h : _boxcox ext0 [(-3:ℝ), -3, -3] (some 1) none none
      = .error .dataMustNotBeConstant := by
    unfold _boxcox
    rw [if_neg (by simp), if_pos hconst]
  refine ⟨⟨-3, by simp, by norm_num⟩, ?_⟩
  rw [h]
  simp

/-- Claim C7 as amended: for every NON-CONSTANT sequence containing a
non-positive element and every lambda, the checked transform fails with the
positivity error (called `DomainError` in the specification). -/
theorem boxcox_nonpositive_error (ext : Externals) (x : List ℝ)
    (hnc : ¬ ∀ a ∈ x, a = x.headD 0) (hneg : ∃ a ∈ x, a ≤ 0)
    (lmbda : Option ℝ) (bounds : Option (List ℝ)) (alpha : Option ℝ) :
    _boxcox ext x lmbda bounds alpha = .error .dataMustBePositive := by
  have hne : x ≠ [] := by
    rintro rfl
    exact hnc (by simp)
  unfold _boxcox
  rw [if_neg hne, if_neg hnc, if_pos hneg]

/-- Witness for the amended C7 at `x = [1, -2, 3]`, `lmbda = 1`. -/
theorem boxcox_nonpositive_error_witness :
    _boxcox ext0 [1, -2, 3] (some 1) none none
      = .error .dataMustBePositive :=
  boxcox_nonpositive_error ext0 [1, -2, 3]
    (by norm_num [List.forall_mem_cons]) ⟨-2, by simp, by norm_num⟩
    (some 1) none none

/-- Claim C10: the `_boxcox` precondition checks run in a fixed order — an
empty sequence is returned unchanged before any constancy or positivity
check, and a sequence that is both constant and non-positive raises the
constant-data error, not the positivity error. -/
theorem boxcox_check_order (ext : Externals) (lmbda : Option ℝ)
    (bounds : Option (List ℝ)) (alpha : Option ℝ) :
    _boxcox ext [] lmbda bounds alpha = .ok (.arr []) ∧
    _boxcox ext [(-3:ℝ), -3, -3] lmbda bounds alpha
      = .error .dataMustNotBeConstant ∧
    _boxcox ext [(-3:ℝ), -3, -3] lmbda bounds alpha
      ≠ .error .dataMustBePositive := by
  have hconst : ∀ a ∈ [(-3:ℝ), -3, -3], a = [(-3:ℝ), -3, -3].headD 0 := by
    intro a ha; fin_cases ha <;> rfl
  have h2 : _boxcox ext [(-3:ℝ), -3, -3] lmbda bounds alpha
      = .error .dataMustNotBeConstant := by
    unfold _boxcox
    rw [if_neg (by simp), if_pos hconst]
  refine ⟨?_, h2, ?_⟩
  · unfold _boxcox
    rw [if_pos rfl]
  · rw [h2]
    simp

/-- Dispatch form of `_boxcox_normmax` once the optimizer is built. -/
lemma normmax_ok_opt (ext : Externals) (x : List ℝ)
    (bounds : Option (List ℝ)) (method : String)
    (optimizer : (ℝ → ℝ) → ℝ)
    (h : _make_boxcox_optimizer ext bounds = .ok optimizer) :
    _boxcox_normmax ext x bounds method =
      if method = "pearsonr" then
        (normmaxPearsonr ext optimizer x).map .scalar
      else if method = "mle" then
        (normmaxMle ext optimizer x).map .scalar
      else if method = "all" then
        match normmaxPearsonr ext optimizer x, normmaxMle ext optimizer x with
        | .ok p, .ok m => .ok (.array [p, m])
        | .error e, _ => .error e
        | _, .error e => .error e
      else .error .methodNotRecognized := by
  unfold _boxcox_normmax
  rw [h]

/-- Claim C5: with method `"all"`, `_boxcox_normmax` returns an array of
exactly 2 values — the `"pearsonr"` result followed by the `"mle"` result —
and never a single scalar. -/
theorem normmax_all_two_vector (ext : Externals) (x : List ℝ)
    (bounds : Option (List ℝ)) (p m : ℝ)
    (hp : _boxcox_normmax ext x bounds "pearsonr" = .ok (.scalar p))
    (hm : _boxcox_normmax ext x bounds "mle" = .ok (.scalar m)) :
    _boxcox_normmax ext x bounds "all" = .ok (.array [p, m]) ∧
      ([p, m] : List ℝ).length = 2 ∧
      ∀ r : ℝ, _boxcox_normmax ext x bounds "all" ≠ .ok (.scalar r) := by
  cases hopt : _make_boxcox_optimizer ext bounds with
  | error e =>
      unfold _boxcox_normmax at hp
      rw [hopt] at hp
      exact absurd hp (by simp)
  | ok optimizer =>
      rw [normmax_ok_opt ext x bounds "pearsonr" optimizer hopt,
        if_pos rfl] at hp
      rw [normmax_ok_opt ext x bounds "mle" optimizer hopt,
        if_neg (by decide), if_pos rfl] at hm
      rw [normmax_ok_opt ext x bounds "all" optimizer hopt,
        if_neg (by decide), if_neg (by decide), if_pos rfl]
      unfold normmaxMle at hm
      simp only [Except.map, Except.ok.injEq, PyFloatOrArray.scalar.injEq] at hm
      cases hP : normmaxPearsonr ext optimizer x with
      | error e =>
          rw [hP] at hp
          exact absurd hp (by simp [Except.map])
      | ok q =>
          rw [hP] at hp
          simp only [Except.map, Except.ok.injEq,
            PyFloatOrArray.scalar.injEq] at hp
          subst hp
          unfold normmaxMle
          rw [hm]
          exact ⟨rfl, rfl, fun r => by simp⟩

/-- Witness for C5 at `x = [1, 2]`, unbounded search, with the concrete
externals `ext0` (whose optimizer returns 0 for every objective). -/
theorem normmax_all_two_vector_witness :
    _boxcox_normmax ext0 [1, 2] none "all" = .ok (.array [0, 0]) := by
  have hopt0 : _make_boxcox_optimizer ext0 none = .ok ext0.brent := rfl
  have hp : _boxcox_normmax ext0 [1, 2] none "pearsonr"
      = .ok (.scalar 0) := by
    rw [normmax_ok_opt ext0 [1, 2] none "pearsonr" ext0.brent hopt0,
      if_pos rfl]
    unfold normmaxPearsonr
    rw [if_neg (by norm_num [List.forall_mem_cons]),
      if_neg (by norm_num [List.forall_mem_cons])]
    rfl
  have hm : _boxcox_normmax ext0 [1, 2] none "mle" = .ok (.scalar 0) := by
    rw [normmax_ok_opt ext0 [1, 2] none "mle" ext0.brent hopt0,
      if_neg (by decide), if_pos rfl]
    rfl
  exact (normmax_all_two_vector ext0 [1, 2] none 0 0 hp hm).1

/-- Claim C8: `_guerrero` fails with the invalid-parameter error when the
seasonal periodicity is missing, not an integer, or an integer below 2. -/
theorem guerrero_sp_validation (ext : Externals) (x : List ℝ)
    (bounds : Option (List ℝ)) :
    _guerrero ext x none bounds = .error .guerreroNeedsSp ∧
    (∀ r : ℝ, _guerrero ext x (some (.floatVal r)) bounds
      = .error .guerreroNeedsSp) ∧
    ∀ n : ℤ, n < 2 → _guerrero ext x (some (.intVal n)) bounds
      = .error .guerreroNeedsSp := by
  refine ⟨rfl, fun r => rfl, fun n hn => ?_⟩
  unfold _guerrero
  simp only []
  rw [if_neg (by simp [is_int]), if_pos hn]

/-- Witness for C8 at `x = [1]` with `sp` missing, `sp = 0.5`, `sp = 1`. -/
theorem guerrero_sp_validation_witness :
    _guerrero ext0 [1] none none = .error .guerreroNeedsSp ∧
    _guerrero ext0 [1] (some (.floatVal (1 / 2))) none
      = .error .guerreroNeedsSp ∧
    _guerrero ext0 [1] (some (.intVal 1)) none = .error .guerreroNeedsSp := by
  obtain ⟨h1, h2, h3⟩ := guerrero_sp_validation ext0 [1] none
  exact ⟨h1, h2 (1 / 2), h3 1 (by norm_num)⟩

/-- Claim C3: for a seasonal period `n ≥ 2`, the guerrero method drops
exactly the first `len(x) % sp` elements, reshapes the rest into consecutive
blocks of length `sp` (the blocks concatenate back to the trimmed sequence
and each has length `sp`), and — provided the external Brent minimizer
returns a minimizer of its objective — returns the lambda minimizing the
coefficient of variation of `std(ddof=1) / mean^(1-lambda)` across blocks. -/
theorem guerrero_blocks_min (ext : Externals) (x : List ℝ) (n : ℤ)
    (hn : 2 ≤ n)
    (hopt : ∀ l : ℝ,
      guerreroObj x n.toNat (ext.brent (guerreroObj x n.toNat))
        ≤ guerreroObj x n.toNat l) :
    (guerreroBlocks x n.toNat).flatten = x.drop (x.length % n.toNat) ∧
    (∀ b ∈ guerreroBlocks x n.toNat, b.length = n.toNat) ∧
    ∃ lam : ℝ, _guerrero ext x (some (.intVal n)) none = .ok lam ∧
      ∀ l : ℝ,
        variation (List.zipWith (fun s mn => s / mn ^ (1 - lam))
            ((guerreroBlocks x n.toNat).map (fun b => npStd b 1))
            ((guerreroBlocks x n.toNat).map npMean))
          ≤ variation (List.zipWith (fun s mn => s / mn ^ (1 - l))
            ((guerreroBlocks x n.toNat).map (fun b => npStd b 1))
            ((guerreroBlocks x n.toNat).map npMean)) := by
  have hsp : 0 < n.toNat := by omega
  refine ⟨guerreroBlocks_flatten x n.toNat hsp,
    guerreroBlocks_mem_length x n.toNat hsp,
    ext.brent (guerreroObj x n.toNat), ?_, fun l => hopt l⟩
  unfold _guerrero
  simp only []
  rw [if_neg (by simp [is_int]), if_neg (by omega)]
  rfl

/-- Helper for the C3 witness: with a single block the ratio list is a
singleton, whose coefficient of variation is 0, so the guerrero objective on
`[1, 2]` with `sp = 2` is identically zero. -/
lemma guerreroObj_one_two (t : ℝ) : guerreroObj [(1:ℝ), 2] 2 t = 0 := by
  have hb : guerreroBlocks [(1:ℝ), 2] 2 = [[1, 2]] := rfl
  unfold guerreroObj
  rw [hb]
  simp only [List.map_cons, List.map_nil, List.zipWith_cons_cons,
    List.zipWith_nil_right]
  exact variation_singleton _

/-- Witness for C3 at `x = [1, 2]`, `sp = 2`, with the concrete externals
`ext0`, whose objective is constant so its minimizer assumption holds. -/
theorem guerrero_blocks_min_witness :
    ∃ lam : ℝ, _guerrero ext0 [1, 2] (some (.intVal 2)) none = .ok lam := by
  obtain ⟨-, -, lam, hlam, -⟩ :=
    guerrero_blocks_min ext0 [1, 2] 2 (by norm_num)
      (by
        intro l
        simp only [show Int.toNat 2 = 2 from rfl, guerreroObj_one_two]
        exact le_rfl)
  exact ⟨lam, hlam⟩

/-- Claim C4: prediction returns, per instance, the arithmetic mean of the
individual member predictions — every member counted exactly once with equal
weight — and the result is invariant under permutation of the ensemble
(order of member evaluation does not matter). -/
theorem tsf_predict_mean {E I : Type}
    (tr : List (List ℝ) → I → List (List ℝ))
    (ep : E → List (List ℝ) → List ℝ) (f : TSForestRegressor E I)
    (X : List (List ℝ))
    (hlen : (X.headD []).length = f.series_length)
    (hne : f.members ≠ [])
    (hrect : ∀ p ∈ f.members, (_predict tr ep X p.1 p.2).length = X.length) :
    ∃ r : List ℝ,
      f.predict tr ep X = .ok r ∧
      r.length = X.length ∧
      (∀ j, j < X.length →
        r.getD j 0 =
          (f.members.map (fun p => (_predict tr ep X p.1 p.2).getD j 0)).sum
            / f.members.length) ∧
      ∀ g : TSForestRegressor E I, g.series_length = f.series_length →
        g.members.Perm f.members → g.predict tr ep X = f.predict tr ep X := by
  have hcond : ¬ (X.headD []).length ≠ f.series_length := fun hc => hc hlen
  set rows := f.members.map (fun p => _predict tr ep X p.1 p.2) with hrows
  have hrowsne : rows ≠ [] := by
    rw [hrows]
    simpa using hne
  have hrowsrect : ∀ r ∈ rows, r.length = X.length := by
    intro r hr
    rw [hrows] at hr
    obtain ⟨p, hp, rfl⟩ := List.mem_map.mp hr
    exact hrect p hp
  have hhead : (rows.headD []).length = X.length :=
    hrowsrect _ (headD_mem_of_ne_nil rows [] hrowsne)
  have hpred : f.predict tr ep X = .ok (meanAxis0 rows) := by
    simp only [TSForestRegressor.predict]
    rw [if_neg hcond, hrows]
  refine ⟨meanAxis0 rows, hpred, ?_, ?_, ?_⟩
  · rw [meanAxis0_length, hhead]
  · intro j hj
    rw [meanAxis0_getD rows j (lt_of_lt_of_le hj (le_of_eq hhead.symm))]
    rw [hrows, List.map_map, List.length_map]
    rfl
  · intro g hg hgperm
    have hcondg : ¬ (X.headD []).length ≠ g.series_length :=
      fun hc => hc (hlen.trans hg.symm)
    have hpermrows :
        (g.members.map (fun p => _predict tr ep X p.1 p.2)).Perm rows :=
      hrows ▸ (hgperm.map _)
    have hgne : g.members.map (fun p => _predict tr ep X p.1 p.2) ≠ [] := by
      intro e
      rw [e] at hpermrows
      exact hrowsne (List.Perm.eq_nil hpermrows.symm)
    simp only [TSForestRegressor.predict]
    rw [if_neg hcondg, if_neg hcond]
    exact congrArg Except.ok
      (meanAxis0_perm _ _ hpermrows X.length
        (fun r hr => hrowsrect r (hpermrows.mem_iff.mp hr)) hgne)

/-- Constant-predictor instantiation for the C4 witness: each member is a
real number `c`, predicting `c` for every instance. -/
def epW : ℝ → List (List ℝ) → List ℝ := fun c m => m.map (fun _ => c)

/-- Identity interval transform for the C4 witness. -/
def trW : List (List ℝ) → Unit → List (List ℝ) := fun X _ => X

/-- A fitted forest of the three constant predictors 1.0, 2.0, 3.0, trained
on series of length 3. -/
def fW : TSForestRegressor ℝ Unit := ⟨3, [(1, ()), (2, ()), (3, ())]⟩

/-- A batch of two instances of series length 3. -/
def XW : List (List ℝ) := [[1, 2, 3], [4, 5, 6]]

/-- Witness for C4: the 3 constant predictors returning 1.0, 2.0, 3.0 give
prediction 2.0 for every instance. -/
theorem tsf_predict_mean_witness :
    ∃ r : List ℝ, TSForestRegressor.predict trW epW fW XW = .ok r ∧
      r.getD 0 0 = 2 ∧ r.getD 1 0 = 2 := by
  obtain ⟨r, hok, hlen, helem, -⟩ :=
    tsf_predict_mean trW epW fW XW rfl (by simp [fW])
      (by intro p hp; simp [_predict, trW, epW])
  have h0 := helem 0 (by simp [XW])
  have h1 := helem 1 (by simp [XW])
  norm_num [_predict, trW, epW, XW, fW] at h0 h1
  refine ⟨r, hok, ?_, ?_⟩
  · rw [List.getD_eq_getElem?_getD]
    exact h0
  · rw [List.getD_eq_getElem?_getD]
    exact h1

/-- Claim C9: a batch whose series length differs from the training
`series_length` makes `predict` fail with the series-length mismatch error
(called `ShapeError` in the specification), and it does so for every ensemble —
no member is evaluated. -/
theorem tsf_predict_length_mismatch {E I : Type}
    (tr : List (List ℝ) → I → List (List ℝ))
    (ep : E → List (List ℝ) → List ℝ) (f : TSForestRegressor E I)
    (X : List (List ℝ))
    (hmis : (X.headD []).length ≠ f.series_length) :
    f.predict tr ep X = .error .seriesLengthMismatch ∧
    ∀ members2 : List (E × I),
      TSForestRegressor.predict tr ep ⟨f.series_length, members2⟩ X
        = .error .seriesLengthMismatch := by
  constructor
  · simp only [TSForestRegressor.predict]
    rw [if_pos hmis]
  · intro m2
    simp only [TSForestRegressor.predict]
    rw [if_pos hmis]

/-- Witness for C9: a batch of series length 2 against a forest trained on
series length 3. -/
theorem tsf_predict_length_mismatch_witness :
    TSForestRegressor.predict (fun X _ => X) (fun _ _ => ([] : List ℝ))
      (⟨3, ([] : List (Unit × Unit))⟩ : TSForestRegressor Unit Unit)
      [[(1:ℝ), 2]] = .error .seriesLengthMismatch :=
  (tsf_predict_length_mismatch _ _ _ _ (by simp)).1

end Sktime
